import Mathlib

/-!
Verification development for `obbsubjectextractor` (`subjectextractor.go`).

The Go code is shallowly embedded: Go strings and byte slices are modelled as
`List Nat` of byte values, runes as `Nat` code points, fallible operations as
`Option` / `Except`.  Loops that consume a cryptobyte cursor are modelled with
an explicit fuel parameter; the fuel supplied at every call site equals the
length of the buffer, which is always sufficient because each loop iteration
consumes at least one byte (fuel-irrelevance lemmas are proved below).
-/

/-- Go strings are byte sequences (possibly invalid UTF-8). -/
abbrev GoStr := List Nat

/-- UTF-8 encoding of one rune, as in Go `utf8.AppendRune` (used by
`string([]rune)`): surrogates and out-of-range values encode U+FFFD. -/
def encodeRune (c : Nat) : List Nat :=
  if c < 128 then [c]
  else if c < 2048 then [192 + c / 64, 128 + c % 64]
  else if 55296 ≤ c ∧ c ≤ 57343 then [239, 191, 189]
  else if c < 65536 then [224 + c / 4096, 128 + c / 64 % 64, 128 + c % 64]
  else if c ≤ 1114111 then
    [240 + c / 262144, 128 + c / 4096 % 64, 128 + c / 64 % 64, 128 + c % 64]
  else [239, 191, 189]

/-- A Unicode scalar value (what a Go rune produced by a valid decode can be). -/
def isScalar (c : Nat) : Prop := c < 55296 ∨ (57344 ≤ c ∧ c ≤ 1114111)

instance (c : Nat) : Decidable (isScalar c) := by unfold isScalar; infer_instance

/-- Byte sequence of a Lean string literal (UTF-8), used to write Go string
literals in statements. -/
def gs (s : String) : GoStr := s.data.map Char.toNat |>.flatMap encodeRune

/-- Encode a list of runes to bytes, as Go `string([]rune)`. -/
def runesToBytes (rs : List Nat) : GoStr := rs.flatMap encodeRune

/-- Lower bound of the accepted second byte for a given UTF-8 first byte
(Go `utf8.acceptRanges`). -/
def accLo (b : Nat) : Nat := if b = 224 then 160 else if b = 240 then 144 else 128

/-- Upper bound of the accepted second byte for a given UTF-8 first byte. -/
def accHi (b : Nat) : Nat := if b = 237 then 159 else if b = 244 then 143 else 191

/-- Go `utf8.DecodeRune` over a byte list: returns (rune, size); any invalid
or truncated encoding yields (U+FFFD, 1), the empty input (U+FFFD, 0). -/
def goDecodeRune : List Nat → Nat × Nat
  | [] => (65533, 0)
  | b :: rest =>
    if b < 128 then (b, 1)
    else if b < 194 then (65533, 1)
    else if b < 224 then
      match rest with
      | b1 :: _ =>
        if accLo b ≤ b1 ∧ b1 ≤ accHi b then ((b - 192) * 64 + (b1 - 128), 2)
        else (65533, 1)
      | [] => (65533, 1)
    else if b < 240 then
      match rest with
      | b1 :: b2 :: _ =>
        if accLo b ≤ b1 ∧ b1 ≤ accHi b then
          if 128 ≤ b2 ∧ b2 ≤ 191 then
            ((b - 224) * 4096 + (b1 - 128) * 64 + (b2 - 128), 3)
          else (65533, 1)
        else (65533, 1)
      | _ => (65533, 1)
    else if b < 245 then
      match rest with
      | b1 :: b2 :: b3 :: _ =>
        if accLo b ≤ b1 ∧ b1 ≤ accHi b then
          if 128 ≤ b2 ∧ b2 ≤ 191 then
            if 128 ≤ b3 ∧ b3 ≤ 191 then
              ((b - 240) * 262144 + (b1 - 128) * 4096 + (b2 - 128) * 64 + (b3 - 128), 4)
            else (65533, 1)
          else (65533, 1)
        else (65533, 1)
      | _ => (65533, 1)
    else (65533, 1)

/-- Decode all runes of a byte string, as Go `for _, r := range s` (fuel-driven;
fuel = length is always enough since each step consumes at least one byte). -/
def decodeRunesF : Nat → List Nat → List Nat
  | _, [] => []
  | 0, _ :: _ => []
  | fuel + 1, bs@(_ :: _) =>
    let p := goDecodeRune bs
    p.1 :: decodeRunesF fuel (bs.drop p.2)

/-- The runes of a Go string, as observed by a `range` loop. -/
def decodeRunes (bs : List Nat) : List Nat := decodeRunesF bs.length bs

/-- Go `utf8.Valid`: every position decodes to a real rune (an invalid
sequence is exactly a decode that returns (U+FFFD, 1)). -/
def utf8ValidF : Nat → List Nat → Bool
  | _, [] => true
  | 0, _ :: _ => true
  | fuel + 1, bs@(_ :: _) =>
    let p := goDecodeRune bs
    if p.1 = 65533 ∧ p.2 = 1 then false else utf8ValidF fuel (bs.drop p.2)

def utf8Valid (bs : List Nat) : Bool := utf8ValidF bs.length bs

/-- Go `utf16.Decode`: big-endian surrogate pairs are combined, unpaired
surrogates become U+FFFD. -/
def utf16Decode : List Nat → List Nat
  | [] => []
  | [r] => if r < 55296 ∨ 57344 ≤ r then [r] else [65533]
  | r :: r2 :: rest =>
    if r < 55296 ∨ 57344 ≤ r then r :: utf16Decode (r2 :: rest)
    else if r < 56320 then
      if 56320 ≤ r2 ∧ r2 < 57344 then
        ((r - 55296) * 1024 + (r2 - 56320) + 65536) :: utf16Decode rest
      else 65533 :: utf16Decode (r2 :: rest)
    else 65533 :: utf16Decode (r2 :: rest)

/-- Big-endian 16-bit code units from a byte list (`uint16(value[0])<<8 +
uint16(value[1])` in the BMPString loop). -/
def bmpUnits : List Nat → List Nat
  | b1 :: b2 :: rest => (b1 * 256 + b2) :: bmpUnits rest
  | _ => []

/-- Strip one trailing two-byte null terminator if present (BMPString case of
`parseASN1String`). -/
def stripBmpTerminator (v : List Nat) : List Nat :=
  if 2 ≤ v.length ∧ v.getD (v.length - 1) 1 = 0 ∧ v.getD (v.length - 2) 1 = 0 then
    v.take (v.length - 2)
  else v

/-- `isPrintable` from subjectextractor.go. -/
def isPrintable (b : Nat) : Bool :=
  (97 ≤ b && b ≤ 122) ||
  (65 ≤ b && b ≤ 90) ||
  (48 ≤ b && b ≤ 57) ||
  (39 ≤ b && b ≤ 41) ||
  (43 ≤ b && b ≤ 47) ||
  b == 32 ||
  b == 58 ||
  b == 61 ||
  b == 63 ||
  b == 42 ||
  b == 38

/-- `isIA5String` from subjectextractor.go: every decoded rune is ASCII
(invalid UTF-8 decodes to U+FFFD, which is rejected as > 127). -/
def isIA5String (value : List Nat) : Bool := (decodeRunes value).all (· ≤ 127)

/-- The per-tag string validation failures of `parseASN1String`. -/
inductive StrError
  | invalidPrintableString
  | invalidUTF8String
  | invalidBMPString
  | invalidIA5String
  | invalidNumericString
  | unsupportedStringType (tag : Nat)
deriving DecidableEq, Repr

/-- `parseASN1String` from subjectextractor.go.  Tags: T61String 20,
PrintableString 19, UTF8String 12, BMPString 30, IA5String 22,
NumericString 18. -/
def parseASN1String (tag : Nat) (value : List Nat) : Except StrError GoStr :=
  if tag = 20 then .ok value
  else if tag = 19 then
    if value.all isPrintable then .ok value else .error .invalidPrintableString
  else if tag = 12 then
    if utf8Valid value then .ok value else .error .invalidUTF8String
  else if tag = 30 then
    if value.length % 2 ≠ 0 then .error .invalidBMPString
    else .ok (runesToBytes (utf16Decode (bmpUnits (stripBmpTerminator value))))
  else if tag = 22 then
    if isIA5String value then .ok value else .error .invalidIA5String
  else if tag = 18 then
    if value.all (fun b => (48 ≤ b && b ≤ 57) || b == 32) then .ok value
    else .error .invalidNumericString
  else .error (.unsupportedStringType tag)

deriving instance DecidableEq for Except

/-- Big-endian unsigned value of a byte list (cryptobyte `readUnsigned`). -/
def beNat (bs : List Nat) : Nat := bs.foldl (fun a b => a * 256 + b) 0

/-- cryptobyte `String.ReadAnyASN1`: read one TLV element, returning
(tag byte, content bytes, remaining bytes).  High-tag-number identifiers are
rejected; DER-minimal length encodings are enforced for the long form; the
uint32 overflow check of the Go code is the `2 ^ 32` test. -/
def readAnyASN1 (s : List Nat) : Option (Nat × List Nat × List Nat) :=
  match s with
  | t :: l :: rest =>
    if t % 32 = 31 then none
    else if l < 128 then
      if rest.length < l then none
      else some (t, rest.take l, rest.drop l)
    else
      let lenLen := l % 128
      if lenLen = 0 then none
      else if 4 < lenLen then none
      else if rest.length < lenLen then none
      else
        let len32 := beNat (rest.take lenLen)
        if len32 < 128 then none
        else if len32 / 256 ^ (lenLen - 1) = 0 then none
        else if 2 ^ 32 ≤ 2 + lenLen + len32 then none
        else if rest.length < lenLen + len32 then none
        else some (t, (rest.drop lenLen).take len32, (rest.drop lenLen).drop len32)
  | _ => none

/-- cryptobyte `String.ReadASN1`: like `readAnyASN1` but the tag must match. -/
def readASN1 (tag : Nat) (s : List Nat) : Option (List Nat × List Nat) :=
  match readAnyASN1 s with
  | none => none
  | some (t, c, r) => if t = tag then some (c, r) else none

/-- cryptobyte `String.readBase128Int` (arguments: bytes, iteration index,
accumulator). -/
def readBase128Int : List Nat → Nat → Nat → Option (Nat × List Nat)
  | [], _, _ => none
  | b :: rest, i, ret =>
    if i = 5 then none
    else if 16777216 ≤ ret then none
    else if i = 0 ∧ b = 128 then none
    else
      let ret' := ret * 128 + b % 128
      if b < 128 then some (ret', rest)
      else readBase128Int rest (i + 1) ret'

/-- Read base-128 varints until the buffer is exhausted (fuel = buffer length
is always enough: each varint consumes at least one byte). -/
def readBase128ListF : Nat → List Nat → Option (List Nat)
  | _, [] => some []
  | 0, _ :: _ => none
  | fuel + 1, bs@(_ :: _) =>
    match readBase128Int bs 0 0 with
    | none => none
    | some (v, rest) => (readBase128ListF fuel rest).map (v :: ·)

/-- cryptobyte `String.ReadASN1ObjectIdentifier`: OBJECT IDENTIFIER tag is 6;
the first varint packs the first two components. -/
def readASN1ObjectIdentifier (s : List Nat) : Option (List Nat × List Nat) :=
  match readASN1 6 s with
  | none => none
  | some (bytes, rest) =>
    if bytes.isEmpty then none
    else
      match readBase128Int bytes 0 0 with
      | none => none
      | some (v, tail) =>
        let firstTwo := if v < 80 then [v / 40, v % 40] else [2, v - 80]
        match readBase128ListF tail.length tail with
        | none => none
        | some comps => some (firstTwo ++ comps, rest)

/-- Decimal digits (as bytes) of a natural number, as Go `strconv.AppendInt`. -/
def natDecimal (n : Nat) : List Nat := gs (Nat.repr n)

/-- Go `asn1.ObjectIdentifier.String`: components joined with dots. -/
def oidString (comps : List Nat) : GoStr :=
  match comps with
  | [] => []
  | c :: rest => natDecimal c ++ rest.flatMap (fun v => 46 :: natDecimal v)

/-- The `oidNames` table from subjectextractor.go. -/
def oidNames : List (GoStr × GoStr) :=
  [(gs "2.5.4.3", gs "CN"),
   (gs "2.5.4.7", gs "L"),
   (gs "2.5.4.8", gs "ST"),
   (gs "2.5.4.10", gs "O"),
   (gs "2.5.4.11", gs "OU"),
   (gs "2.5.4.6", gs "C"),
   (gs "2.5.4.9", gs "STREET"),
   (gs "0.9.2342.19200300.100.1.25", gs "DC"),
   (gs "0.9.2342.19200300.100.1.1", gs "UID")]

/-- Go map lookup `oidNames[t]`. -/
def oidLookup (t : GoStr) : Option GoStr :=
  (oidNames.find? (fun p => p.1 = t)).map (·.2)

/-- DER length octets produced by the cryptobyte `Builder` (`flushChild` with
`pendingIsASN1`): minimal short or long form. -/
def encLen (n : Nat) : List Nat :=
  if n < 128 then [n]
  else if n ≤ 255 then [129, n]
  else if n ≤ 65535 then [130, n / 256, n % 256]
  else if n ≤ 16777215 then [131, n / 65536, n / 256 % 256, n % 256]
  else [132, n / 16777216, n / 65536 % 256, n / 256 % 256, n % 256]

/-- cryptobyte `Builder.AddASN1` followed by `Builder.Bytes`: fails on a
high-tag-number identifier or an over-long child, otherwise re-serializes the
TLV. -/
def addASN1 (tag : Nat) (content : List Nat) : Option (List Nat) :=
  if tag % 32 = 31 then none
  else if 4294967294 < content.length then none
  else some (tag :: encLen content.length ++ content)

/-- One lowercase hex digit byte. -/
def hexDigit (n : Nat) : Nat := if n < 10 then 48 + n else 87 + n

/-- Go `hex.EncodeToString` (lowercase). -/
def hexEncode (bs : List Nat) : GoStr :=
  bs.flatMap (fun b => [hexDigit (b / 16), hexDigit (b % 16)])

/-- The escape condition of the renderer loop in `parseName`: `c` is the rune,
`k` its byte index, `n` the byte length of the whole value. -/
def escClause (c k n : Nat) : Bool :=
  if c = 44 ∨ c = 43 ∨ c = 34 ∨ c = 92 ∨ c = 60 ∨ c = 62 ∨ c = 59 then true
  else if c = 32 then k = 0 ∨ k = n - 1
  else if c = 35 then k = 0
  else false

/-- The `for k, c := range valueString` escaping loop of `parseName`, producing
the `escaped` rune slice (fuel = remaining byte count, always sufficient). -/
def escapeLoopF : Nat → Nat → Nat → List Nat → List Nat
  | _, _, _, [] => []
  | 0, _, _, _ :: _ => []
  | fuel + 1, n, k, bs@(_ :: _) =>
    let p := goDecodeRune bs
    (if escClause p.1 k n then [92, p.1] else [p.1]) ++
      escapeLoopF fuel n (k + p.2) (bs.drop p.2)

/-- The escaped runes of a decoded attribute value. -/
def escapeValue (vs : GoStr) : List Nat := escapeLoopF vs.length vs.length 0 vs

/-- `name=escapedvalue`: rendered bytes of a known-OID attribute value. -/
def escRender (vs : GoStr) : GoStr := runesToBytes (escapeValue vs)

/-- The structured errors of `parseName` (Go error strings, as an inductive). -/
inductive X509Error
  | invalidRDNSequence
  | invalidAttribute
  | invalidAttributeType
  | invalidAttributeValue
  | invalidAttributeValueString (e : StrError)
  | errorBuildingName
deriving DecidableEq, Repr

/-- One iteration of the inner SET loop of `parseName`: read one
AttributeTypeAndValue SEQUENCE from the SET contents and render its segment
(`name=value` or `oid=#hex`), returning the segment and the rest of the SET. -/
def processATV (set_ : List Nat) : Except X509Error (GoStr × List Nat) :=
  match readASN1 48 set_ with
  | none => .error .invalidAttribute
  | some (atav, setRest) =>
    match readASN1ObjectIdentifier atav with
    | none => .error .invalidAttributeType
    | some (comps, atav2) =>
      match readAnyASN1 atav2 with
      | none => .error .invalidAttributeValue
      | some (valueTag, rawValue, _) =>
        let t := oidString comps
        match oidLookup t with
        | some name =>
          match parseASN1String valueTag rawValue with
          | .error e => .error (.invalidAttributeValueString e)
          | .ok valueString => .ok (name ++ gs "=" ++ escRender valueString, setRest)
        | none =>
          match addASN1 valueTag rawValue with
          | none => .error .errorBuildingName
          | some bts => .ok (t ++ gs "=#" ++ hexEncode bts, setRest)

/-- The inner `for !set.Empty()` loop of `parseName`: each attribute prepends
`segment ++ ","` to the accumulator `s` (fuel = SET length is sufficient:
every iteration consumes at least two bytes). -/
def parseSetLoopF : Nat → List Nat → GoStr → Except X509Error GoStr
  | _, [], s => .ok s
  | 0, _ :: _, _ => .error .invalidAttribute
  | fuel + 1, set_@(_ :: _), s =>
    match processATV set_ with
    | .error e => .error e
    | .ok (seg, rest) => parseSetLoopF fuel rest (seg ++ gs "," ++ s)

/-- The outer `for !raw.Empty()` loop of `parseName` over the RDNSequence
contents: read one SET (tag 49) and run the inner loop on it. -/
def parseSeqLoopF : Nat → List Nat → GoStr → Except X509Error GoStr
  | _, [], s => .ok s
  | 0, _ :: _, _ => .error .invalidRDNSequence
  | fuel + 1, raw@(_ :: _), s =>
    match readASN1 49 raw with
    | none => .error .invalidRDNSequence
    | some (set_, rest) =>
      match parseSetLoopF set_.length set_ s with
      | .error e => .error e
      | .ok s' => parseSeqLoopF fuel rest s'

/-- `parseName` from subjectextractor.go: strip the outer SEQUENCE (tag 48),
run the RDN loop, drop the final trailing comma.  Mirrors the Go signature
`(string, error)`: every error path returns the empty string. -/
def parseName (raw : List Nat) : GoStr × Option X509Error :=
  match readASN1 48 raw with
  | none => ([], some .invalidRDNSequence)
  | some (content, _) =>
    match parseSeqLoopF content.length content [] with
    | .error e => ([], some e)
    | .ok s => (s.dropLast, none)

/-- The fields of `x509.Certificate` relevant here: `ExtractSubject` reads only
`RawSubject`.  Other fields are carried to state the purity claim. -/
structure Certificate where
  raw : List Nat
  rawSubject : List Nat
  rawIssuer : List Nat
  signature : List Nat
  version : Nat
deriving DecidableEq, Repr

/-- `ExtractSubject` from subjectextractor.go. -/
def ExtractSubject (cert : Certificate) : GoStr × Option X509Error :=
  parseName cert.rawSubject

/-! ### Helper lemmas -/

theorem encodeRune_ne_nil (c : Nat) : encodeRune c ≠ [] := by
  unfold encodeRune; split_ifs <;> simp

theorem encodeRune_length_pos (c : Nat) : 0 < (encodeRune c).length := by
  cases h : encodeRune c with
  | nil => exact absurd h (encodeRune_ne_nil c)
  | cons a l => simp

/-- Decoding the UTF-8 encoding of a scalar (with any continuation) recovers
the scalar and its encoded length. -/
theorem goDecodeRune_encodeRune (c : Nat) (h : isScalar c) (tail : List Nat) :
    goDecodeRune (encodeRune c ++ tail) = (c, (encodeRune c).length) := by
  by_cases h1 : c < 128
  · have he : encodeRune c = [c] := by unfold encodeRune; rw [if_pos h1]
    rw [he]; simp only [List.cons_append, List.nil_append, goDecodeRune, List.length_cons,
      List.length_nil]
    rw [if_pos h1]
  · by_cases h2 : c < 2048
    · have he : encodeRune c = [192 + c / 64, 128 + c % 64] := by
        unfold encodeRune; rw [if_neg h1, if_pos h2]
      rw [he]
      simp only [List.cons_append, List.nil_append, goDecodeRune, accLo, accHi,
        List.length_cons, List.length_nil]
      have hb : ¬(192 + c / 64 < 128) := by omega
      have hb2 : ¬(192 + c / 64 < 194) := by omega
      have hb3 : 192 + c / 64 < 224 := by omega
      rw [if_neg hb, if_neg hb2, if_pos hb3]
      have hacc : (if 192 + c / 64 = 224 then 160 else
          if 192 + c / 64 = 240 then 144 else 128) ≤ 128 + c % 64 ∧
          128 + c % 64 ≤ (if 192 + c / 64 = 237 then 159 else
          if 192 + c / 64 = 244 then 143 else 191) := by
        constructor
        · split_ifs with he1 he2
          · omega
          · omega
          · omega
        · split_ifs with he1 he2
          · omega
          · omega
          · omega
      rw [if_pos hacc]
      have : (192 + c / 64 - 192) * 64 + (128 + c % 64 - 128) = c := by omega
      rw [this]
    · by_cases h3 : 55296 ≤ c ∧ c ≤ 57343
      · exact absurd h (by unfold isScalar; omega)
      · by_cases h4 : c < 65536
        · have he : encodeRune c = [224 + c / 4096, 128 + c / 64 % 64, 128 + c % 64] := by
            unfold encodeRune; rw [if_neg h1, if_neg h2, if_neg h3, if_pos h4]
          rw [he]
          simp only [List.cons_append, List.nil_append, goDecodeRune, accLo, accHi,
            List.length_cons, List.length_nil]
          have hb : ¬(224 + c / 4096 < 128) := by omega
          have hb2 : ¬(224 + c / 4096 < 194) := by omega
          have hb3 : ¬(224 + c / 4096 < 224) := by omega
          have hb4 : 224 + c / 4096 < 240 := by omega
          rw [if_neg hb, if_neg hb2, if_neg hb3, if_pos hb4]
          have hacc : (if 224 + c / 4096 = 224 then 160 else
              if 224 + c / 4096 = 240 then 144 else 128) ≤ 128 + c / 64 % 64 ∧
              128 + c / 64 % 64 ≤ (if 224 + c / 4096 = 237 then 159 else
              if 224 + c / 4096 = 244 then 143 else 191) := by
            constructor
            · split_ifs with he1 he2
              · omega
              · omega
              · omega
            · split_ifs with he1 he2
              · omega
              · omega
              · omega
          rw [if_pos hacc]
          have hacc2 : 128 ≤ 128 + c % 64 ∧ 128 + c % 64 ≤ 191 := by omega
          rw [if_pos hacc2]
          have : (224 + c / 4096 - 224) * 4096 + (128 + c / 64 % 64 - 128) * 64 +
              (128 + c % 64 - 128) = c := by omega
          rw [this]
        · have h5 : c ≤ 1114111 := by
            rcases h with h | ⟨ha, hb⟩
            · omega
            · exact hb
          have he : encodeRune c =
              [240 + c / 262144, 128 + c / 4096 % 64, 128 + c / 64 % 64, 128 + c % 64] := by
            unfold encodeRune
            rw [if_neg h1, if_neg h2, if_neg h3, if_neg h4, if_pos h5]
          rw [he]
          simp only [List.cons_append, List.nil_append, goDecodeRune, accLo, accHi,
            List.length_cons, List.length_nil]
          have hb1 : ¬(240 + c / 262144 < 128) := by omega
          have hb2 : ¬(240 + c / 262144 < 194) := by omega
          have hb3 : ¬(240 + c / 262144 < 224) := by omega
          have hb4 : ¬(240 + c / 262144 < 240) := by omega
          have hb5 : 240 + c / 262144 < 245 := by omega
          rw [if_neg hb1, if_neg hb2, if_neg hb3, if_neg hb4, if_pos hb5]
          have hacc : (if 240 + c / 262144 = 224 then 160 else
              if 240 + c / 262144 = 240 then 144 else 128) ≤ 128 + c / 4096 % 64 ∧
              128 + c / 4096 % 64 ≤ (if 240 + c / 262144 = 237 then 159 else
              if 240 + c / 262144 = 244 then 143 else 191) := by
            constructor
            · split_ifs with he1 he2
              · omega
              · omega
              · omega
            · split_ifs with he1 he2
              · omega
              · omega
              · omega
          rw [if_pos hacc]
          have hacc2 : 128 ≤ 128 + c / 64 % 64 ∧ 128 + c / 64 % 64 ≤ 191 := by omega
          have hacc3 : 128 ≤ 128 + c % 64 ∧ 128 + c % 64 ≤ 191 := by omega
          rw [if_pos hacc2, if_pos hacc3]
          have : (240 + c / 262144 - 240) * 262144 + (128 + c / 4096 % 64 - 128) * 4096 +
              (128 + c / 64 % 64 - 128) * 64 + (128 + c % 64 - 128) = c := by omega
          rw [this]

/-- A successful TLV read consumes at least the two header bytes. -/
theorem readAnyASN1_rest_len {s : List Nat} {t : Nat} {c r : List Nat}
    (h : readAnyASN1 s = some (t, c, r)) : r.length + 2 ≤ s.length := by
  match s with
  | [] => simp [readAnyASN1] at h
  | [_] => simp [readAnyASN1] at h
  | t0 :: l :: rest =>
    simp only [readAnyASN1] at h
    split_ifs at h
    all_goals
      simp only [Option.some.injEq, Prod.mk.injEq] at h
    all_goals obtain ⟨ht, hc, hr⟩ := h
    all_goals subst hr
    all_goals simp only [List.length_drop, List.length_cons]
    all_goals omega

/-- A successfully read tag byte is never in high-tag-number form, and the
content always fits within the cryptobyte Builder's length limit. -/
theorem readAnyASN1_props {s : List Nat} {t : Nat} {c r : List Nat}
    (h : readAnyASN1 s = some (t, c, r)) :
    t % 32 ≠ 31 ∧ c.length ≤ 4294967292 := by
  match s with
  | [] => simp [readAnyASN1] at h
  | [_] => simp [readAnyASN1] at h
  | t0 :: l :: rest =>
    simp only [readAnyASN1] at h
    split_ifs at h
    all_goals
      simp only [Option.some.injEq, Prod.mk.injEq] at h
    all_goals obtain ⟨ht, hc, hr⟩ := h
    all_goals subst ht hc
    all_goals simp only [List.length_take, List.length_drop]
    all_goals constructor
    all_goals omega

/-- Reading a TLV that exactly fills its buffer, with extra bytes appended,
returns the same element and the appended bytes as the remainder. -/
theorem readAnyASN1_append {e : List Nat} {t : Nat} {c : List Nat}
    (h : readAnyASN1 e = some (t, c, [])) (tail : List Nat) :
    readAnyASN1 (e ++ tail) = some (t, c, tail) := by
  match e with
  | [] => simp [readAnyASN1] at h
  | [_] => simp [readAnyASN1] at h
  | t0 :: l :: rest =>
    rw [List.cons_append, List.cons_append]
    simp only [readAnyASN1] at h ⊢
    by_cases h1 : t0 % 32 = 31
    · rw [if_pos h1] at h; exact Option.noConfusion h
    rw [if_neg h1] at h ⊢
    by_cases h2 : l < 128
    · rw [if_pos h2] at h ⊢
      by_cases h3 : rest.length < l
      · rw [if_pos h3] at h; exact Option.noConfusion h
      rw [if_neg h3] at h
      simp only [Option.some.injEq, Prod.mk.injEq] at h
      obtain ⟨ht, hc, hr⟩ := h
      have hlen : rest.length = l := by
        have h4 : (rest.drop l).length = 0 := by rw [hr]; rfl
        rw [List.length_drop] at h4; omega
      have hge : ¬((rest ++ tail).length < l) := by rw [List.length_append]; omega
      rw [if_neg hge]
      have htake : (rest ++ tail).take l = c := by
        rw [← hc, ← hlen, List.take_left, List.take_length]
      have hdrop : (rest ++ tail).drop l = tail := by rw [← hlen, List.drop_left]
      rw [htake, hdrop, ht]
    · rw [if_neg h2] at h ⊢
      by_cases h4 : l % 128 = 0
      · rw [if_pos h4] at h; exact Option.noConfusion h
      rw [if_neg h4] at h ⊢
      by_cases h5 : 4 < l % 128
      · rw [if_pos h5] at h; exact Option.noConfusion h
      rw [if_neg h5] at h ⊢
      by_cases h6 : rest.length < l % 128
      · rw [if_pos h6] at h; exact Option.noConfusion h
      rw [if_neg h6] at h
      have hge1 : ¬((rest ++ tail).length < l % 128) := by rw [List.length_append]; omega
      rw [if_neg hge1]
      have htk : (rest ++ tail).take (l % 128) = rest.take (l % 128) := by
        rw [List.take_append_eq_append_take, show l % 128 - rest.length = 0 by omega]
        simp
      rw [htk]
      by_cases h7 : beNat (rest.take (l % 128)) < 128
      · rw [if_pos h7] at h; exact Option.noConfusion h
      rw [if_neg h7] at h ⊢
      by_cases h8 : beNat (rest.take (l % 128)) / 256 ^ (l % 128 - 1) = 0
      · rw [if_pos h8] at h; exact Option.noConfusion h
      rw [if_neg h8] at h ⊢
      by_cases h9 : 2 ^ 32 ≤ 2 + l % 128 + beNat (rest.take (l % 128))
      · rw [if_pos h9] at h; exact Option.noConfusion h
      rw [if_neg h9] at h ⊢
      by_cases h10 : rest.length < l % 128 + beNat (rest.take (l % 128))
      · rw [if_pos h10] at h; exact Option.noConfusion h
      rw [if_neg h10] at h
      simp only [Option.some.injEq, Prod.mk.injEq] at h
      obtain ⟨ht, hc, hr⟩ := h
      have hlen : rest.length = l % 128 + beNat (rest.take (l % 128)) := by
        have hz : ((rest.drop (l % 128)).drop (beNat (rest.take (l % 128)))).length = 0 := by
          rw [hr]; rfl
        rw [List.length_drop, List.length_drop] at hz; omega
      have hge2 : ¬((rest ++ tail).length < l % 128 + beNat (rest.take (l % 128))) := by
        rw [List.length_append]; omega
      rw [if_neg hge2]
      have hdrop : (rest ++ tail).drop (l % 128) = rest.drop (l % 128) ++ tail := by
        rw [List.drop_append_eq_append_drop, show l % 128 - rest.length = 0 by omega]
        simp
      rw [hdrop]
      have hdl : (rest.drop (l % 128)).length = beNat (rest.take (l % 128)) := by
        rw [List.length_drop]; omega
      have htake2 : (rest.drop (l % 128) ++ tail).take (beNat (rest.take (l % 128))) = c := by
        rw [← hc, ← hdl, List.take_left, List.take_length]
      have hdrop2 : (rest.drop (l % 128) ++ tail).drop (beNat (rest.take (l % 128))) = tail := by
        rw [← hdl, List.drop_left]
      rw [htake2, hdrop2, ht]

/-- A successful expected-tag read is a successful any-tag read of that tag. -/
theorem readASN1_some {tag : Nat} {s : List Nat} {c r : List Nat}
    (h : readASN1 tag s = some (c, r)) : readAnyASN1 s = some (tag, c, r) := by
  unfold readASN1 at h
  split at h
  · exact Option.noConfusion h
  · rename_i t c' r' heq
    split_ifs at h with ht
    · simp only [Option.some.injEq, Prod.mk.injEq] at h
      obtain ⟨hc, hr⟩ := h
      subst ht hc hr
      exact heq

/-- The outer RDN loop is independent of the fuel, provided the fuel is at
least the buffer length (each iteration consumes at least two bytes). -/
theorem parseSeqLoopF_fuel : ∀ (n f g : Nat) (raw : List Nat) (s : GoStr),
    raw.length ≤ n → raw.length ≤ f → raw.length ≤ g →
    parseSeqLoopF f raw s = parseSeqLoopF g raw s := by
  intro n
  induction n with
  | zero =>
    intro f g raw s hn _ _
    have : raw = [] := List.length_eq_zero.mp (by omega)
    subst this
    simp [parseSeqLoopF]
  | succ n ih =>
    intro f g raw s hn hf hg
    cases raw with
    | nil => simp [parseSeqLoopF]
    | cons b raw' =>
      simp only [List.length_cons] at hn hf hg
      cases f with
      | zero => omega
      | succ f' =>
        cases g with
        | zero => omega
        | succ g' =>
          simp only [parseSeqLoopF]
          cases hrd : readASN1 49 (b :: raw') with
          | none => rfl
          | some p =>
            obtain ⟨set_, rest⟩ := p
            dsimp only
            have hlen := readAnyASN1_rest_len (readASN1_some hrd)
            simp only [List.length_cons] at hlen
            cases hset : parseSetLoopF set_.length set_ s with
            | error e => rfl
            | ok s' => exact ih f' g' rest s' (by omega) (by omega) (by omega)

/-- A SET whose contents are a single attribute renders that attribute's
segment and a comma onto the accumulator. -/
theorem parseSetLoopF_single {c : List Nat} {seg : GoStr}
    (h : processATV c = .ok (seg, [])) (s : GoStr) :
    parseSetLoopF c.length c s = .ok (seg ++ gs "," ++ s) := by
  cases c with
  | nil => simp [processATV, readASN1, readAnyASN1] at h
  | cons b tl =>
    simp only [List.length_cons, parseSetLoopF, h]

/-- Processing one whole SET TLV at the head of the RDN-sequence buffer steps
the outer loop by one RDN. -/
theorem parseSeqLoopF_step {e : List Nat} {c : List Nat} {s s' : GoStr}
    (he : readAnyASN1 e = some (49, c, []))
    (hset : parseSetLoopF c.length c s = .ok s') (tailB : List Nat) :
    parseSeqLoopF (e ++ tailB).length (e ++ tailB) s =
      parseSeqLoopF tailB.length tailB s' := by
  have helen := readAnyASN1_rest_len he
  cases e with
  | nil => simp at helen
  | cons b0 e1 =>
    have hrd : readASN1 49 (b0 :: (e1 ++ tailB)) = some (c, tailB) := by
      rw [← List.cons_append]
      unfold readASN1
      rw [readAnyASN1_append he tailB]
      simp
    rw [List.cons_append]
    simp only [List.length_cons, parseSeqLoopF, hrd, hset]
    exact parseSeqLoopF_fuel (e1 ++ tailB).length _ _ tailB s'
      (by simp [List.length_append]) (by simp [List.length_append]) le_rfl

/-- The escaping rule as the specification words it, over characters: always
escape the seven specials, escape a space only as first or last character,
escape `#` only as first character. -/
def escCondSpec (c : Nat) (isFirst isLast : Bool) : Bool :=
  if c = 44 ∨ c = 43 ∨ c = 34 ∨ c = 92 ∨ c = 60 ∨ c = 62 ∨ c = 59 then true
  else if c = 32 then isFirst || isLast
  else if c = 35 then isFirst
  else false

/-- Specification-side escaping over a list of code points. -/
def escapeSpecGo : Bool → List Nat → List Nat
  | _, [] => []
  | isFirst, c :: rest =>
    (if escCondSpec c isFirst rest.isEmpty then [92, c] else [c]) ++ escapeSpecGo false rest

/-- Specification-side escaping of a whole value (first character flagged). -/
def escapeSpec (cs : List Nat) : List Nat := escapeSpecGo true cs

theorem flatMap_encodeRune_eq_nil {cs : List Nat} :
    cs.flatMap encodeRune = [] ↔ cs = [] := by
  cases cs with
  | nil => simp
  | cons c tl =>
    simp only [List.flatMap_cons, List.append_eq_nil]
    constructor
    · rintro ⟨h, -⟩
      exact absurd h (encodeRune_ne_nil c)
    · intro h
      exact absurd h (by simp)

/-- The byte-indexed escaping loop of `parseName`, run on the UTF-8 encoding
of a list of scalars, agrees with the character-indexed specification rule. -/
theorem escapeLoopF_spec : ∀ (cs : List Nat), (∀ c ∈ cs, isScalar c) →
    ∀ (fuel n k : Nat) (isFirst : Bool),
    (cs.flatMap encodeRune).length ≤ fuel →
    k + (cs.flatMap encodeRune).length = n →
    ((k = 0) ↔ (isFirst = true)) →
    escapeLoopF fuel n k (cs.flatMap encodeRune) = escapeSpecGo isFirst cs := by
  intro cs
  induction cs with
  | nil =>
    intro _ fuel n k isFirst _ _ _
    simp [escapeLoopF, escapeSpecGo]
  | cons c cs' ih =>
    intro hsc fuel n k isFirst hfuel hn hk
    have hcs : isScalar c := hsc c (by simp)
    have hne := encodeRune_ne_nil c
    have hlenE := encodeRune_length_pos c
    simp only [List.flatMap_cons] at hfuel hn ⊢
    have hn' : k + (encodeRune c).length + (cs'.flatMap encodeRune).length = n := by
      rw [List.length_append] at hn; omega
    have hfuel' : (encodeRune c).length + (cs'.flatMap encodeRune).length ≤ fuel := by
      rw [List.length_append] at hfuel; exact hfuel
    cases he : encodeRune c with
    | nil => exact absurd he hne
    | cons e0 e' =>
      cases fuel with
      | zero => omega
      | succ fl =>
        simp only [escapeLoopF, List.append_eq]
        have hdec : goDecodeRune (e0 :: (e' ++ cs'.flatMap encodeRune)) =
            (c, (encodeRune c).length) := by
          rw [← List.cons_append, ← he]
          exact goDecodeRune_encodeRune c hcs _
        rw [hdec]
        have hdrop : (e0 :: (e' ++ cs'.flatMap encodeRune)).drop (encodeRune c).length =
            cs'.flatMap encodeRune := by
          rw [← List.cons_append, ← he, List.drop_left]
        rw [hdrop]
        have hcond : escClause c k n = escCondSpec c isFirst cs'.isEmpty := by
          unfold escClause escCondSpec
          by_cases hsp : c = 44 ∨ c = 43 ∨ c = 34 ∨ c = 92 ∨ c = 60 ∨ c = 62 ∨ c = 59
          · rw [if_pos hsp, if_pos hsp]
          · rw [if_neg hsp, if_neg hsp]
            by_cases h32 : c = 32
            · rw [if_pos h32, if_pos h32]
              have hel : (encodeRune c).length = 1 := by rw [h32]; rfl
              have hlast : (k = n - 1) ↔ (cs'.isEmpty = true) := by
                rw [List.isEmpty_iff, ← @flatMap_encodeRune_eq_nil cs',
                  ← List.length_eq_zero]
                omega
              cases hf : isFirst with
              | true =>
                have hk0 : k = 0 := hk.mpr hf
                simp [hk0]
              | false =>
                have hk0 : ¬(k = 0) := fun h0 => by rw [hk.mp h0] at hf; cases hf
                cases hemp : cs'.isEmpty with
                | true =>
                  have hl := hlast.mpr hemp
                  simp [hl, hk0]
                | false =>
                  have h2 : ¬(k = n - 1) := fun hh => by rw [hlast.mp hh] at hemp; cases hemp
                  simp [hk0, h2]
            · rw [if_neg h32, if_neg h32]
              by_cases h35 : c = 35
              · rw [if_pos h35, if_pos h35]
                cases hf : isFirst with
                | true => simp [hk.mpr hf]
                | false =>
                  have hk0 : ¬(k = 0) := fun h0 => by rw [hk.mp h0] at hf; cases hf
                  simp [hk0]
              · rw [if_neg h35, if_neg h35]
        rw [hcond]
        have hrec : escapeLoopF fl n (k + (encodeRune c).length) (cs'.flatMap encodeRune) =
            escapeSpecGo false cs' := by
          apply ih (fun x hx => hsc x (by simp [hx]))
          · omega
          · omega
          · constructor
            · intro h0
              omega
            · intro hcontra
              exact absurd hcontra (by simp)
        rw [hrec]
        rfl

/-! ### Claim theorems -/

/-- C5: `decodeString` (`parseASN1String`) on a PrintableString (tag 19)
succeeds returning the bytes iff every byte is in the permitted set
(letters, digits, the punctuation `'()+,-./:=?`, space) or is `*` (42) or `&`
(38); any other byte — for example `@` (64) — fails with the
invalid-PrintableString error. -/
theorem claim_C5 :
    (∀ bs : List Nat, parseASN1String 19 bs = .ok bs ↔ bs.all isPrintable = true) ∧
    (∀ bs : List Nat,
      parseASN1String 19 bs = .error .invalidPrintableString ↔
        ¬(bs.all isPrintable = true)) ∧
    (∀ b : Nat, isPrintable b = true ↔
      ((65 ≤ b ∧ b ≤ 90) ∨ (97 ≤ b ∧ b ≤ 122) ∨ (48 ≤ b ∧ b ≤ 57) ∨
       b = 39 ∨ b = 40 ∨ b = 41 ∨ b = 43 ∨ b = 44 ∨ b = 45 ∨ b = 46 ∨ b = 47 ∨
       b = 58 ∨ b = 61 ∨ b = 63 ∨ b = 32 ∨ b = 42 ∨ b = 38)) ∧
    parseASN1String 19 [64] = .error .invalidPrintableString := by
  refine ⟨?_, ?_, ?_, by decide⟩
  · intro bs
    unfold parseASN1String
    by_cases h : bs.all isPrintable = true
    · simp [h]
    · simp [h]
  · intro bs
    unfold parseASN1String
    by_cases h : bs.all isPrintable = true
    · simp [h]
    · simp [h]
  · intro b
    unfold isPrintable
    simp only [Bool.or_eq_true, Bool.and_eq_true, decide_eq_true_eq, beq_iff_eq]
    omega

/-- C6: `decodeString` on a BMPString (tag 30) fails exactly on odd byte
length; even inputs always decode (one trailing two-byte null stripped,
big-endian UTF-16 with surrogate pairs): 00 41 00 42 00 00 gives "AB", the
surrogate pair D8 3D DE 00 gives U+1F600, and only one null pair is
stripped. -/
theorem claim_C6 :
    (∀ bs : List Nat, bs.length % 2 = 1 →
      parseASN1String 30 bs = .error .invalidBMPString) ∧
    (∀ bs : List Nat, bs.length % 2 = 0 → ∃ s, parseASN1String 30 bs = .ok s) ∧
    parseASN1String 30 [0, 65, 0, 66, 0, 0] = .ok (gs "AB") ∧
    parseASN1String 30 [216, 61, 222, 0] = .ok (encodeRune 128512) ∧
    parseASN1String 30 [0, 0, 0, 0] = .ok [0] := by
  refine ⟨?_, ?_, by decide, by decide, by decide⟩
  · intro bs h
    unfold parseASN1String
    norm_num
    omega
  · intro bs h
    unfold parseASN1String
    norm_num [h]

/-- C8: a Subject that is a valid DER SEQUENCE with empty contents (zero RDN
SETs) extracts to the empty string with no error. -/
theorem claim_C8 (cert : Certificate) (rest : List Nat)
    (h : readASN1 48 cert.rawSubject = some ([], rest)) :
    ExtractSubject cert = ([], none) := by
  unfold ExtractSubject parseName
  rw [h]
  rfl

/-- C8 witness: the two-byte subject 30 00. -/
theorem claim_C8_witness : ExtractSubject ⟨[], [48, 0], [], [], 0⟩ = ([], none) :=
  claim_C8 ⟨[], [48, 0], [], [], 0⟩ [] (by decide)

/-- C9: `ExtractSubject` depends only on the certificate's raw Subject bytes:
certificates equal in `rawSubject` but arbitrary in every other field give
identical (result, error) outcomes. -/
theorem claim_C9 (c1 c2 : Certificate) (h : c1.rawSubject = c2.rawSubject) :
    ExtractSubject c1 = ExtractSubject c2 := by
  unfold ExtractSubject
  rw [h]

/-- C9 witness: same subject, differing raw bytes, issuer, signature and
version. -/
theorem claim_C9_witness :
    ExtractSubject ⟨[1], [48, 0], [2], [3], 1⟩ =
      ExtractSubject ⟨[9], [48, 0], [8], [7], 2⟩ :=
  claim_C9 ⟨[1], [48, 0], [2], [3], 1⟩ ⟨[9], [48, 0], [8], [7], 2⟩ rfl

/-- C7: whenever extraction fails — malformed TLV at any level (bad tag, bad
length, truncated or trailing garbage inside a container), invalid string
encoding, or an unsupported string tag — `ExtractSubject` returns a
structured error paired with the empty result string; the embedding is a
total function, so no input crashes.  The conjuncts exhibit one concrete
failure of each kind. -/
theorem claim_C7 :
    (∀ (cert : Certificate) (s : GoStr) (e : X509Error),
      ExtractSubject cert = (s, some e) → s = []) ∧
    ExtractSubject ⟨[], [], [], [], 0⟩ = ([], some .invalidRDNSequence) ∧
    ExtractSubject ⟨[], [48, 5, 49, 0], [], [], 0⟩ = ([], some .invalidRDNSequence) ∧
    ExtractSubject ⟨[], [48, 2, 48, 0], [], [], 0⟩ = ([], some .invalidRDNSequence) ∧
    ExtractSubject ⟨[], [48, 12, 49, 10, 48, 8, 6, 3, 85, 4, 3, 19, 1, 64], [], [], 0⟩ =
      ([], some (.invalidAttributeValueString .invalidPrintableString)) ∧
    ExtractSubject ⟨[], [48, 11, 49, 9, 48, 7, 6, 3, 85, 4, 3, 5, 0], [], [], 0⟩ =
      ([], some (.invalidAttributeValueString (.unsupportedStringType 5))) := by
  refine ⟨?_, by decide, by decide, by decide, by decide, by decide⟩
  intro cert s e h
  unfold ExtractSubject parseName at h
  split at h
  · simp only [Prod.mk.injEq] at h
    exact h.1.symm
  · split at h
    · simp only [Prod.mk.injEq] at h
      exact h.1.symm
    · simp only [Prod.mk.injEq] at h
      exact absurd h.2 (by simp)

/-- C7 witness: the general part instantiated at the empty subject. -/
theorem claim_C7_witness : ([] : GoStr) = [] :=
  claim_C7.1 ⟨[], [], [], [], 0⟩ [] X509Error.invalidRDNSequence (by decide)

/-- A buffer that is a concatenation of whole TLV elements, as the contents
of a well-formed RDNSequence are; used to place an empty SET after an
arbitrary well-formed prefix of RDNs. -/
inductive TLVChain : List Nat → Prop
  | nil : TLVChain []
  | cons (e rest' : List Nat) (t : Nat) (c : List Nat)
      (he : readAnyASN1 e = some (t, c, []))
      (hch : TLVChain rest') : TLVChain (e ++ rest')

/-- Unfolding one whole TLV element at the head of the RDN-sequence buffer:
a non-SET tag errors, a SET runs the inner loop and continues. -/
theorem parseSeqLoopF_head {e : List Nat} {t : Nat} {c : List Nat}
    (he : readAnyASN1 e = some (t, c, [])) (tailB : List Nat) (s : GoStr) :
    parseSeqLoopF (e ++ tailB).length (e ++ tailB) s =
      (if t = 49 then
        match parseSetLoopF c.length c s with
        | .error err => Except.error err
        | .ok s' => parseSeqLoopF tailB.length tailB s'
      else .error .invalidRDNSequence) := by
  have helen := readAnyASN1_rest_len he
  cases e with
  | nil => simp at helen
  | cons b0 e1 =>
    have hany : readAnyASN1 (b0 :: (e1 ++ tailB)) = some (t, c, tailB) := by
      rw [← List.cons_append]
      exact readAnyASN1_append he tailB
    rw [List.cons_append]
    simp only [List.length_cons, parseSeqLoopF]
    unfold readASN1
    rw [hany]
    dsimp only
    by_cases ht : t = 49
    · rw [if_pos ht, if_pos ht]
      dsimp only
      cases hset : parseSetLoopF c.length c s with
      | error err => rfl
      | ok s' =>
        dsimp only
        exact parseSeqLoopF_fuel (e1 ++ tailB).length _ _ tailB s'
          (by simp [List.length_append]) (by simp [List.length_append]) le_rfl
    · rw [if_neg ht, if_neg ht]

/-- Two continuations of the RDN loop that agree from every accumulator still
agree after processing any well-formed prefix of whole TLV elements. -/
theorem parseSeqLoopF_chain {L : List Nat} (hch : TLVChain L) :
    ∀ (X Y : List Nat) (s : GoStr),
    (∀ s', parseSeqLoopF X.length X s' = parseSeqLoopF Y.length Y s') →
    parseSeqLoopF (L ++ X).length (L ++ X) s =
      parseSeqLoopF (L ++ Y).length (L ++ Y) s := by
  induction hch with
  | nil =>
    intro X Y s hXY
    simpa using hXY s
  | cons e rest' t c he hch ih =>
    intro X Y s hXY
    rw [List.append_assoc, List.append_assoc]
    rw [parseSeqLoopF_head he (rest' ++ X) s, parseSeqLoopF_head he (rest' ++ Y) s]
    by_cases ht : t = 49
    · rw [if_pos ht, if_pos ht]
      cases hset : parseSetLoopF c.length c s with
      | error err => rfl
      | ok s' => exact ih X Y s' hXY
    · rw [if_neg ht, if_neg ht]

/-- C10: an RDN SET with zero attributes is accepted and contributes nothing,
at any position: a Subject whose RDNSequence contents are a well-formed
prefix of whole TLV elements, then the empty SET `31 00`, then anything,
extracts to exactly what the same Subject without that empty SET extracts to
(in particular the empty SET introduces no error).  The second conjunct runs
a Subject that is just one empty SET, the third a Subject with the empty SET
after CN=A. -/
theorem claim_C10 :
    (∀ (cert cert' : Certificate) (L R rest rest' : List Nat),
      TLVChain L →
      readASN1 48 cert.rawSubject = some (L ++ ([49, 0] ++ R), rest) →
      readASN1 48 cert'.rawSubject = some (L ++ R, rest') →
      ExtractSubject cert = ExtractSubject cert') ∧
    ExtractSubject ⟨[], [48, 2, 49, 0], [], [], 0⟩ = ([], none) ∧
    ExtractSubject ⟨[], [48, 14, 49, 10, 48, 8, 6, 3, 85, 4, 3, 19, 1, 65, 49, 0],
      [], [], 0⟩ = (gs "CN=A", none) := by
  refine ⟨?_, by decide, by decide⟩
  intro cert cert' L R rest rest' hch h h'
  unfold ExtractSubject parseName
  rw [h, h']
  dsimp only
  have hkey : parseSeqLoopF (L ++ ([49, 0] ++ R)).length (L ++ ([49, 0] ++ R)) [] =
      parseSeqLoopF (L ++ R).length (L ++ R) [] :=
    parseSeqLoopF_chain hch ([49, 0] ++ R) R []
      (fun s' => @parseSeqLoopF_step [49, 0] [] s' s' (by decide) rfl R)
  rw [hkey]

/-- C10 witness: the empty SET in the middle position, after the CN=A RDN —
subject 30 0E 31 0A 30 08 06 03 55 04 03 13 01 41 31 00 extracts identically
to subject 30 0C 31 0A 30 08 06 03 55 04 03 13 01 41. -/
theorem claim_C10_witness :
    ExtractSubject ⟨[], [48, 14, 49, 10, 48, 8, 6, 3, 85, 4, 3, 19, 1, 65, 49, 0],
        [], [], 0⟩ =
      ExtractSubject ⟨[], [48, 12, 49, 10, 48, 8, 6, 3, 85, 4, 3, 19, 1, 65],
        [], [], 0⟩ :=
  claim_C10.1
    ⟨[], [48, 14, 49, 10, 48, 8, 6, 3, 85, 4, 3, 19, 1, 65, 49, 0], [], [], 0⟩
    ⟨[], [48, 12, 49, 10, 48, 8, 6, 3, 85, 4, 3, 19, 1, 65], [], [], 0⟩
    [49, 10, 48, 8, 6, 3, 85, 4, 3, 19, 1, 65] [] [] []
    (by rw [← List.append_nil [49, 10, 48, 8, 6, 3, 85, 4, 3, 19, 1, 65]]
        exact TLVChain.cons _ _ 49 [48, 8, 6, 3, 85, 4, 3, 19, 1, 65] (by decide)
          TLVChain.nil)
    (by decide) (by decide)

/-- C3: for an AttributeTypeAndValue whose OID is not in the registry, no
string-content validation runs: rendering succeeds for any value bytes and
any (readable) tag, producing the dotted OID, `=#`, and lowercase hex of the
re-encoded original TLV (tag byte, minimal DER length, value bytes).
Concretely, OID 1.2.3.4.5 with PrintableString "X" gives `1.2.3.4.5=#130158`
end to end, and the same OID with the PrintableString-invalid byte `@` still
renders, as `1.2.3.4.5=#130140`. -/
theorem claim_C3 :
    (∀ (set_ atav setRest atav2 rest2 value comps : List Nat) (tag : Nat),
      readASN1 48 set_ = some (atav, setRest) →
      readASN1ObjectIdentifier atav = some (comps, atav2) →
      readAnyASN1 atav2 = some (tag, value, rest2) →
      oidLookup (oidString comps) = none →
      processATV set_ =
        .ok (oidString comps ++ gs "=#" ++
          hexEncode (tag :: encLen value.length ++ value), setRest)) ∧
    ExtractSubject ⟨[], [48, 13, 49, 11, 48, 9, 6, 4, 42, 3, 4, 5, 19, 1, 88], [], [], 0⟩ =
      (gs "1.2.3.4.5=#130158", none) ∧
    ExtractSubject ⟨[], [48, 13, 49, 11, 48, 9, 6, 4, 42, 3, 4, 5, 19, 1, 64], [], [], 0⟩ =
      (gs "1.2.3.4.5=#130140", none) := by
  refine ⟨?_, by decide, by decide⟩
  intro set_ atav setRest atav2 rest2 value comps tag h1 h2 h3 h4
  have hprops := readAnyASN1_props h3
  unfold processATV
  rw [h1]
  dsimp only
  rw [h2]
  dsimp only
  rw [h3]
  dsimp only
  rw [h4]
  dsimp only
  unfold addASN1
  rw [if_neg hprops.1, if_neg (by omega)]

/-- C3 witness: the general fallback equation at the concrete unregistered-OID
attribute 1.2.3.4.5 with PrintableString "X". -/
theorem claim_C3_witness :
    processATV [48, 9, 6, 4, 42, 3, 4, 5, 19, 1, 88] =
      .ok (oidString [1, 2, 3, 4, 5] ++ gs "=#" ++
        hexEncode (19 :: encLen 1 ++ [88]), []) :=
  claim_C3.1 [48, 9, 6, 4, 42, 3, 4, 5, 19, 1, 88] [6, 4, 42, 3, 4, 5, 19, 1, 88] []
    [19, 1, 88] [] [88] [1, 2, 3, 4, 5] 19 (by decide) (by decide) (by decide) (by decide)

/-- C2: the code does NOT join the members of a multi-valued RDN with `+`; it
renders each AttributeTypeAndValue as its own comma-separated element, in
reverse encoding order.  For SET containing CN=A then O=B (encoding order)
the code produces `O=B,CN=A`, not the claimed `CN=A+O=B`. -/
theorem claim_C2_eval :
    ExtractSubject ⟨[], [48, 22, 49, 20, 48, 8, 6, 3, 85, 4, 3, 19, 1, 65,
      48, 8, 6, 3, 85, 4, 10, 19, 1, 66], [], [], 0⟩ = (gs "O=B,CN=A", none) := by
  decide

/-- C4: escaping works over decoded Unicode code points; a `\` is prefixed to
exactly the seven specials, to a space only as first or last character, and
to `#` only as first character; everything else, interior spaces and
non-ASCII text included, passes through unchanged. -/
theorem claim_C4 :
    (∀ cs : List Nat, (∀ c ∈ cs, isScalar c) →
      escapeValue (cs.flatMap encodeRune) = escapeSpec cs) ∧
    escRender (gs " leading space") = gs "\\ leading space" ∧
    escRender (gs "trailing ") = gs "trailing\\ " ∧
    escRender (gs "mid space ok") = gs "mid space ok" ∧
    escRender (gs "a,b+c;d<e>f\"g\\h") = gs "a\\,b\\+c\\;d\\<e\\>f\\\"g\\\\h" ∧
    escRender (gs "#ab#") = gs "\\#ab#" ∧
    escRender (gs "né e") = gs "né e" := by
  refine ⟨?_, by decide, by decide, by decide, by decide, by decide, by decide⟩
  intro cs h
  unfold escapeValue escapeSpec
  exact escapeLoopF_spec cs h (cs.flatMap encodeRune).length (cs.flatMap encodeRune).length
    0 true le_rfl (by omega) (by simp)

/-- C4 witness: the characterization at the code points of "a é" (letter,
space, interior non-ASCII). -/
theorem claim_C4_witness :
    escapeValue ([97, 32, 233].flatMap encodeRune) = escapeSpec [97, 32, 233] :=
  claim_C4.1 [97, 32, 233] (by decide)

/-- C1: a Subject whose DER RDNSequence contains three whole SET elements
A, B, C in encoding order, each rendering to a single segment, extracts to
`C,B,A`: the RDN encoded last appears first and segments are joined by
commas. -/
theorem claim_C1 (cert : Certificate) (eA eB eC cA cB cC : List Nat)
    (segA segB segC : GoStr) (rest : List Nat)
    (h : readASN1 48 cert.rawSubject = some (eA ++ eB ++ eC, rest))
    (hA : readAnyASN1 eA = some (49, cA, [])) (hA2 : processATV cA = .ok (segA, []))
    (hB : readAnyASN1 eB = some (49, cB, [])) (hB2 : processATV cB = .ok (segB, []))
    (hC : readAnyASN1 eC = some (49, cC, [])) (hC2 : processATV cC = .ok (segC, [])) :
    ExtractSubject cert = (segC ++ gs "," ++ segB ++ gs "," ++ segA, none) := by
  unfold ExtractSubject parseName
  rw [h]
  dsimp only
  rw [List.append_assoc]
  have s1 := parseSeqLoopF_step hA (parseSetLoopF_single hA2 []) (eB ++ eC)
  rw [s1]
  have s2 := parseSeqLoopF_step hB (parseSetLoopF_single hB2 (segA ++ gs "," ++ [])) eC
  rw [s2]
  have s3 := parseSeqLoopF_step hC
    (parseSetLoopF_single hC2 (segB ++ gs "," ++ (segA ++ gs "," ++ []))) []
  rw [List.append_nil] at s3
  rw [s3]
  simp only [parseSeqLoopF]
  have hacc : segC ++ gs "," ++ (segB ++ gs "," ++ (segA ++ gs "," ++ [])) =
      (segC ++ gs "," ++ segB ++ gs "," ++ segA) ++ [44] := by
    rw [show gs "," = [44] from rfl]
    simp [List.append_assoc]
  rw [hacc, List.dropLast_concat]

/-- C1 witness: SETs for C=BR, O=Example Bank, CN=api.example.com in encoding
order render most-specific-first. -/
theorem claim_C1_witness :
    ExtractSubject ⟨[], [48, 62,
      49, 11, 48, 9, 6, 3, 85, 4, 6, 19, 2, 66, 82,
      49, 21, 48, 19, 6, 3, 85, 4, 10, 19, 12,
        69, 120, 97, 109, 112, 108, 101, 32, 66, 97, 110, 107,
      49, 24, 48, 22, 6, 3, 85, 4, 3, 19, 15,
        97, 112, 105, 46, 101, 120, 97, 109, 112, 108, 101, 46, 99, 111, 109],
      [], [], 0⟩ =
      (gs "CN=api.example.com,O=Example Bank,C=BR", none) :=
  (claim_C1 ⟨[], [48, 62,
      49, 11, 48, 9, 6, 3, 85, 4, 6, 19, 2, 66, 82,
      49, 21, 48, 19, 6, 3, 85, 4, 10, 19, 12,
        69, 120, 97, 109, 112, 108, 101, 32, 66, 97, 110, 107,
      49, 24, 48, 22, 6, 3, 85, 4, 3, 19, 15,
        97, 112, 105, 46, 101, 120, 97, 109, 112, 108, 101, 46, 99, 111, 109],
      [], [], 0⟩
    [49, 11, 48, 9, 6, 3, 85, 4, 6, 19, 2, 66, 82]
    [49, 21, 48, 19, 6, 3, 85, 4, 10, 19, 12,
      69, 120, 97, 109, 112, 108, 101, 32, 66, 97, 110, 107]
    [49, 24, 48, 22, 6, 3, 85, 4, 3, 19, 15,
      97, 112, 105, 46, 101, 120, 97, 109, 112, 108, 101, 46, 99, 111, 109]
    [48, 9, 6, 3, 85, 4, 6, 19, 2, 66, 82]
    [48, 19, 6, 3, 85, 4, 10, 19, 12, 69, 120, 97, 109, 112, 108, 101, 32, 66, 97, 110, 107]
    [48, 22, 6, 3, 85, 4, 3, 19, 15, 97, 112, 105, 46, 101, 120, 97, 109, 112, 108, 101,
      46, 99, 111, 109]
    (gs "C=BR") (gs "O=Example Bank") (gs "CN=api.example.com") []
    (by decide) (by decide) (by decide) (by decide) (by decide) (by decide)
    (by decide)).trans (by decide)

/-- C6 witness: odd length [0] fails, even length [0, 65] decodes. -/
theorem claim_C6_witness :
    parseASN1String 30 [0] = .error .invalidBMPString ∧
    ∃ s, parseASN1String 30 [0, 65] = .ok s :=
  ⟨claim_C6.1 [0] (by decide), claim_C6.2.1 [0, 65] (by decide)⟩
